import Mathlib

-- Verification of the libspiel / libspeechprovider specification against the
-- C sources, as a shallow embedding in Lean 4.
--
-- Strings on the wire and in the registry are modelled as lists of bytes
-- (`List Nat`, each entry < 256 where it matters); machine integers are Nat
-- with explicit `% 2^32` at the points where the C code stores into guint32.
-- Stateful C objects become explicit state-passing functions.

set_option linter.unusedVariables false

-- ============================================================
-- Part 1: the stream protocol
-- (src/libspeechprovider/speech-provider-stream-writer.c,
--  src/libspeechprovider/speech-provider-stream-reader.c,
--  src/libspeechprovider/speech-provider-common.h)
-- ============================================================

-- The bytes of SPEECH_PROVIDER_STREAM_PROTOCOL_VERSION, "0.01"
-- (speech-provider-common.h line 24). The packed SpeechProviderStreamHeader
-- is exactly these four bytes.
def speechProviderStreamHeaderBytes : List Nat := [48, 46, 48, 49]

-- g_utf8_strlen on a byte string: the number of UTF-8 characters, i.e. the
-- number of bytes that are not continuation bytes (0b10xxxxxx).  For a byte
-- b this is the condition b / 64 ≠ 2.
def utf8len (s : List Nat) : Nat := s.countP (fun b => b / 64 != 2)

-- Little-endian encoding of a 32-bit unsigned integer, as written by
-- `write (fd, &x, sizeof (guint32))` on a little-endian host.
def le32 (n : Nat) : List Nat :=
  [n % 256, n / 256 % 256, n / 65536 % 256, n / 16777216 % 256]

-- Little-endian decoding of a byte list (value of the bytes read into a
-- guint32; lists shorter than 4 decode the bytes that are present).
def le32dec (bs : List Nat) : Nat := bs.foldr (fun b acc => b + 256 * acc) 0

-- speech_provider_stream_writer_send_stream_header (writer lines 108-123):
-- writes the packed 4-byte header.
def speech_provider_stream_writer_send_stream_header : List Nat :=
  speechProviderStreamHeaderBytes

-- speech_provider_stream_writer_send_audio (writer lines 135-151): writes
-- the 1-byte AUDIO tag (packed enum value 1), the guint32 chunk size, and
-- `chunk_size` bytes of the payload.  The C API receives the size as a
-- guint32, modelled by the `% 2^32` truncation of the payload length.
def speech_provider_stream_writer_send_audio (chunk : List Nat) : List Nat :=
  1 :: (le32 (chunk.length % 4294967296) ++ chunk.take (chunk.length % 4294967296))

-- speech_provider_stream_writer_send_event (writer lines 161-186): writes
-- the 1-byte EVENT tag (packed enum value 2), the packed 13-byte
-- SpeechProviderEventData record {event_type:u8, range_start:u32,
-- range_end:u32, mark_name_length:u32}, and then, if mark_name_length is
-- nonzero, `mark_name_length` BYTES of the mark name.  Note: the C code
-- computes mark_name_length with g_utf8_strlen, which counts UTF-8
-- CHARACTERS, and then passes that count to write() as a byte count.
def speech_provider_stream_writer_send_event
    (event_type range_start range_end : Nat) (mark_name : List Nat) : List Nat :=
  2 :: (event_type % 256)
    :: (le32 range_start ++ le32 range_end ++ le32 (utf8len mark_name % 4294967296)
        ++ (if utf8len mark_name % 4294967296 ≠ 0 then
              mark_name.take (utf8len mark_name % 4294967296)
            else []))

-- A message handed to the writer after the stream header.
inductive StreamMsg
  | audio (payload : List Nat)
  | event (event_type range_start range_end : Nat) (mark_name : List Nat)
deriving DecidableEq, Repr

def streamMsgBytes : StreamMsg → List Nat
  | .audio p => speech_provider_stream_writer_send_audio p
  | .event t s e m => speech_provider_stream_writer_send_event t s e m

def msgsBytes : List StreamMsg → List Nat
  | [] => []
  | m :: rest => streamMsgBytes m ++ msgsBytes rest

-- The full pipe contents produced by a writer that sends the stream header
-- followed by the given messages.
def writerWire (msgs : List StreamMsg) : List Nat :=
  speech_provider_stream_writer_send_stream_header ++ msgsBytes msgs

-- Reader state: the remaining pipe bytes plus the private fields of
-- SpeechProviderStreamReaderPrivate (reader lines 39-44).  next_chunk_type
-- is the one-byte lookahead; SPEECH_PROVIDER_CHUNK_TYPE_NONE = 0.
structure StreamReaderSt where
  buf : List Nat
  stream_header_received : Bool
  next_chunk_type : Nat
deriving DecidableEq, Repr

def mkReader (bytes : List Nat) : StreamReaderSt := ⟨bytes, false, 0⟩

-- A read(fd, ..., n) from the pipe: takes min(n, available) bytes.
def readBytes (n : Nat) (r : StreamReaderSt) : List Nat × StreamReaderSt :=
  (r.buf.take n, { r with buf := r.buf.drop n })

-- speech_provider_stream_reader_get_stream_header (reader lines 111-126):
-- reads 4 bytes and strncmp-compares them with "0.01".
def speech_provider_stream_reader_get_stream_header
    (r : StreamReaderSt) : Bool × StreamReaderSt :=
  let (hdr, r1) := readBytes 4 r
  (hdr == speechProviderStreamHeaderBytes,
   { r1 with stream_header_received := true })

-- _get_next_chunk_type (reader lines 128-138): if no lookahead is cached,
-- read one byte; at end of stream read() returns nothing and the cached
-- NONE value is kept.
def _get_next_chunk_type (r : StreamReaderSt) : Nat × StreamReaderSt :=
  if r.next_chunk_type = 0 then
    match r.buf with
    | [] => (0, r)
    | b :: rest => (b, { r with buf := rest, next_chunk_type := b })
  else (r.next_chunk_type, r)

-- speech_provider_stream_reader_get_audio (reader lines 153-179): peek the
-- chunk type; if it is not AUDIO (1) return FALSE keeping the lookahead;
-- otherwise read the guint32 size, then that many payload bytes, and clear
-- the lookahead.
def speech_provider_stream_reader_get_audio
    (r : StreamReaderSt) : Option (List Nat) × StreamReaderSt :=
  let (t, r1) := _get_next_chunk_type r
  if t ≠ 1 then (none, r1)
  else
    let (szb, r2) := readBytes 4 r1
    let (chunk, r3) := readBytes (le32dec szb) r2
    (some chunk, { r3 with next_chunk_type := 0 })

-- speech_provider_stream_reader_get_event (reader lines 195-231): peek the
-- chunk type; if it is not EVENT (2) return FALSE keeping the lookahead;
-- otherwise read the packed 13-byte SpeechProviderEventData, then, if
-- mark_name_length is nonzero, that many name bytes (the C code
-- NUL-terminates them in a g_malloc0 buffer; a zero length leaves the out
-- parameter NULL, modelled as `none`), and clear the lookahead.
def speech_provider_stream_reader_get_event
    (r : StreamReaderSt) : Option (Nat × Nat × Nat × Option (List Nat)) × StreamReaderSt :=
  let (t, r1) := _get_next_chunk_type r
  if t ≠ 2 then (none, r1)
  else
    let (ed, r2) := readBytes 13 r1
    let event_type := ed.headD 0
    let range_start := le32dec ((ed.drop 1).take 4)
    let range_end := le32dec ((ed.drop 5).take 4)
    let len := le32dec ((ed.drop 9).take 4)
    if len ≠ 0 then
      let (name, r3) := readBytes len r2
      (some (event_type, range_start, range_end, some name),
       { r3 with next_chunk_type := 0 })
    else
      (some (event_type, range_start, range_end, none),
       { r2 with next_chunk_type := 0 })

-- What a consumer observes through the reader.
inductive ObservedItem
  | audio (payload : List Nat)
  | event (event_type range_start range_end : Nat) (mark_name : Option (List Nat))
deriving DecidableEq, Repr

-- The pull loop of the repository's own consumer
-- (spiel_provider_src_create, src/libspiel/spiel-provider-src.c lines
-- 196-250): repeatedly call get_event, then get_audio, and stop when both
-- report that no chunk of their kind is next.
def readerObserve : Nat → StreamReaderSt → List ObservedItem
  | 0, _ => []
  | fuel + 1, r =>
    match speech_provider_stream_reader_get_event r with
    | (some (t, s, e, m), r1) => .event t s e m :: readerObserve fuel r1
    | (none, r1) =>
      match speech_provider_stream_reader_get_audio r1 with
      | (some chunk, r2) => .audio chunk :: readerObserve fuel r2
      | (none, _) => []

-- Well-formed writer calls: sizes fit the guint32/guint8 fields they are
-- stored into, and the mark name has as many UTF-8 characters as bytes
-- (i.e. it is ASCII; this makes the writer's g_utf8_strlen count equal the
-- byte count).
def streamMsgWF : StreamMsg → Bool
  | .audio p => p.length < 4294967296
  | .event t s e m =>
      t < 256 && s < 4294967296 && e < 4294967296 &&
      utf8len m == m.length && m.length < 4294967296

-- The observation the reader makes of a well-formed message: identical,
-- except that an empty mark name is materialized as NULL (`none`).
def observedOfMsg : StreamMsg → ObservedItem
  | .audio p => .audio p
  | .event t s e m => .event t s e (if m.isEmpty then none else some m)

-- ============================================================
-- Part 2: stream reader/writer construction (claim C10)
-- ============================================================

-- The constructors validate the file descriptor with fcntl (fd, F_GETFD),
-- which succeeds exactly when fd is an open descriptor of the process; the
-- process descriptor table is modelled as a predicate.  On failure they
-- warn and return NULL; on success g_object_new always yields an object.
-- (writer lines 68-78, reader lines 69-79.)

structure StreamWriterObj where
  fd : Int
  stream_header_sent : Bool
deriving DecidableEq, Repr

structure StreamReaderObj where
  fd : Int
  stream_header_received : Bool
  next_chunk_type : Nat
deriving DecidableEq, Repr

def speech_provider_stream_writer_new (openFds : Int → Bool) (fd : Int) :
    Option StreamWriterObj :=
  if openFds fd then some ⟨fd, false⟩ else none

def speech_provider_stream_reader_new (openFds : Int → Bool) (fd : Int) :
    Option StreamReaderObj :=
  if openFds fd then some ⟨fd, false, 0⟩ else none

-- ============================================================
-- Part 3: SpielVoice equality, hash and ordering
-- (src/libspiel/spiel-voice.c)
-- ============================================================

-- A SpielVoice value (SpielVoicePrivate, spiel-voice.c lines 40-48).  The
-- weak provider reference is modelled by the provider OBJECT's identity
-- (g_weak_ref_get yields NULL or a pointer to the provider object, here an
-- abstract Nat); the well-known bus name of a provider object is given by
-- an ambient function `wkn`.
structure SpielVoice where
  name : String
  identifier : String
  languages : List String
  output_format : String
  features : Nat
  provider : Option Nat
deriving DecidableEq, Repr

-- g_str_hash from GLib: h := 5381; for each byte p of the string,
-- h := h * 33 + (signed char) p, in guint arithmetic (mod 2^32; bytes at
-- or above 128 contribute their value minus 256, i.e. plus 2^32 - 256).
def g_str_hash (s : String) : Nat :=
  s.toUTF8.toList.foldl
    (fun h b =>
      (h * 33 + (b.toNat + if 128 ≤ b.toNat then 4294967040 else 0) % 4294967296)
        % 4294967296)
    5381

-- One step `hash = (hash << 5) - hash + x` on guint: 31 * hash + x mod 2^32.
def hashStep (h x : Nat) : Nat := (31 * h + x) % 4294967296

-- spiel_voice_hash (spiel-voice.c lines 214-238): name, identifier, then
-- the provider's well-known name only when the weak reference is live,
-- then every language.
def spiel_voice_hash (wkn : Nat → String) (v : SpielVoice) : Nat :=
  v.languages.foldl (fun h l => hashStep h (g_str_hash l))
    (match v.provider with
     | some p =>
         hashStep (hashStep (g_str_hash v.name) (g_str_hash v.identifier))
           (g_str_hash (wkn p))
     | none => hashStep (g_str_hash v.name) (g_str_hash v.identifier))

-- spiel_voice_equal (spiel-voice.c lines 251-287): compares the two weak
-- provider references by POINTER (two NULLs compare equal), then name,
-- identifier and the languages vectors; output_format and features are
-- never consulted.
def spiel_voice_equal (a b : SpielVoice) : Bool :=
  a.provider == b.provider && a.name == b.name && a.identifier == b.identifier
    && a.languages == b.languages

-- strcmp as used by g_strcmp0 on non-NULL strings.  Code-point comparison
-- has the same sign and the same zero set as the byte-wise UTF-8 strcmp.
def strcmp3 : List Char → List Char → Int
  | [], [] => 0
  | [], _ :: _ => -1
  | _ :: _, [] => 1
  | x :: xs, y :: ys =>
      if x = y then strcmp3 xs ys else (x.toNat : Int) - (y.toNat : Int)

def g_strcmp0 (a b : String) : Int := strcmp3 a.data b.data

-- The provider name used by compare: "" when the weak reference is dead.
def wellKnownNameOf (wkn : Nat → String) : Option Nat → String
  | some p => wkn p
  | none => ""

-- spiel_voice_compare (spiel-voice.c lines 303-338): provider well-known
-- name (empty for a dead reference), then name, then identifier; the
-- languages are never consulted.
def spiel_voice_compare (wkn : Nat → String) (a b : SpielVoice) : Int :=
  if g_strcmp0 (wellKnownNameOf wkn a.provider) (wellKnownNameOf wkn b.provider) ≠ 0 then
    g_strcmp0 (wellKnownNameOf wkn a.provider) (wellKnownNameOf wkn b.provider)
  else if g_strcmp0 a.name b.name ≠ 0 then
    g_strcmp0 a.name b.name
  else
    g_strcmp0 a.identifier b.identifier

-- Agreement on the spec's four-tuple (provider_identifier, name,
-- identifier, languages), and on the first three components only.
def voiceFourTupleAgree (wkn : Nat → String) (a b : SpielVoice) : Prop :=
  wellKnownNameOf wkn a.provider = wellKnownNameOf wkn b.provider ∧
  a.name = b.name ∧ a.identifier = b.identifier ∧ a.languages = b.languages

def voiceThreeTupleAgree (wkn : Nat → String) (a b : SpielVoice) : Prop :=
  wellKnownNameOf wkn a.provider = wellKnownNameOf wkn b.provider ∧
  a.name = b.name ∧ a.identifier = b.identifier

-- The registry invariant needed to identify provider objects with their
-- well-known names: distinct provider objects carry distinct names, and a
-- live provider's name is nonempty (it ends in ".Speech.Provider").
def providerPairCoherent (wkn : Nat → String) : Option Nat → Option Nat → Bool
  | some p, some q => wkn p != wkn q || p == q
  | some p, none => wkn p != ""
  | none, some q => wkn q != ""
  | none, none => true

-- ============================================================
-- Part 4: registry voice resolution
-- (src/libspiel/spiel-registry.c lines 950-1064)
-- ============================================================

-- Byte strings (UTF-8 bytes); the dash byte '-' is 45.
abbrev BStr := List Nat

-- A voice as stored by this registry (created in _add_provider_with_voices
-- with name, identifier, languages and provider-name).
structure RegVoice where
  name : BStr
  identifier : BStr
  languages : List BStr
  provider_name : BStr
deriving DecidableEq, Repr

-- The two GSettings keys consumed by resolution: "language-voice-mapping"
-- (a{s(ss)}) and "default-voice" (m(ss)).
structure RegSettings where
  language_voice_mapping : List (BStr × BStr × BStr)
  default_voice : Option (BStr × BStr)
deriving DecidableEq, Repr

-- Registry state: the providers hash table (well-known name → that
-- provider's voices hashset), the aggregated voices list store, and the
-- optional settings handle (NULL when the schema is not installed).
structure RegistryState where
  providers : List (BStr × List RegVoice)
  voices : List RegVoice
  settings : Option RegSettings
deriving DecidableEq, Repr

-- g_variant_lookup in the mapping dictionary.
def variantLookup (mapping : List (BStr × BStr × BStr)) (k : BStr) :
    Option (BStr × BStr) :=
  mapping.lookup k

-- The byte index of the last '-' in a byte string.
def lastIdxOfDash : BStr → Option Nat
  | [] => none
  | b :: rest =>
    match lastIdxOfDash rest with
    | some i => some (i + 1)
    | none => if b = 45 then some 0 else none

-- The do/while loop of spiel_registry_get_voice_for_utterance (lines
-- 1028-1039): look up the current (truncated) tag; on a miss, find the
-- last '-' within the first `boundary` bytes (the whole string when the
-- boundary is -1, modelled as `none`), truncate there, set the boundary
-- to just before that dash, and repeat while a dash was found.  Every
-- iteration strictly shortens the tag, so fuel `length + 1` suffices.
def mappingLookupLoop (mapping : List (BStr × BStr × BStr)) :
    Nat → BStr → Option Nat → Option (BStr × BStr)
  | 0, _, _ => none
  | fuel + 1, cur, bound =>
    match variantLookup mapping cur with
    | some pv => some pv
    | none =>
      match lastIdxOfDash (match bound with | none => cur | some b => cur.take b) with
      | none => none
      | some i =>
          mappingLookupLoop mapping fuel (cur.take i)
            (if i = 0 then none else some (i - 1))

-- The language-voice-mapping lookup (lines 1020-1042).  Before the loop
-- the C code writes a NUL at byte offset g_utf8_strlen(lang) — the
-- CHARACTER count — so the first tag tried is the prefix of that many
-- bytes (the whole tag when it is ASCII).
def spiel_registry_language_voice_lookup
    (mapping : List (BStr × BStr × BStr)) (language : BStr) :
    Option (BStr × BStr) :=
  mappingLookupLoop mapping (language.length + 1)
    (language.take (utf8len language)) none

-- _get_voice_from_provider_and_name (lines 950-976): look the provider up
-- by name, then scan its voices keeping the LAST one whose identifier
-- matches (the C loop does not break).
def _get_voice_from_provider_and_name (st : RegistryState)
    (provider_name voice_id : BStr) : Option RegVoice :=
  match st.providers.lookup provider_name with
  | none => none
  | some voices =>
      voices.foldl (fun acc v => if v.identifier = voice_id then some v else acc)
        none

-- _match_voice_with_language (lines 978-984): exact membership of the tag
-- in the voice's languages.
def _match_voice_with_language (v : RegVoice) (language : BStr) : Bool :=
  v.languages.contains language

-- _get_fallback_voice (lines 986-1003): when a language is given, search
-- the aggregate for the first voice carrying it; `position` stays 0 when
-- the search fails or no language is given, and get_item on an empty list
-- yields NULL.
def _get_fallback_voice (st : RegistryState) (language : Option BStr) :
    Option RegVoice :=
  match language with
  | some l =>
      st.voices.get?
        ((st.voices.findIdx? (fun v => _match_voice_with_language v l)).getD 0)
  | none => st.voices.get? 0

-- The utterance fields read by resolution.
structure RegUtterance where
  voice : Option RegVoice
  language : Option BStr
deriving DecidableEq, Repr

-- spiel_registry_get_voice_for_utterance (lines 1005-1064).  Note that
-- when the mapping lookup produced a pair, the default-voice setting is
-- never consulted (the `!provider_name` test), even if that pair resolves
-- to no existing voice.
def spiel_registry_get_voice_for_utterance (st : RegistryState)
    (utt : RegUtterance) : Option RegVoice :=
  match utt.voice with
  | some v => some v
  | none =>
    let fromMapping : Option (BStr × BStr) :=
      match utt.language, st.settings with
      | some lang, some s =>
          spiel_registry_language_voice_lookup s.language_voice_mapping lang
      | _, _ => none
    let pair : Option (BStr × BStr) :=
      match fromMapping, st.settings with
      | none, some s => s.default_voice
      | pv, _ => pv
    let voice : Option RegVoice :=
      match pair with
      | some (pn, vid) => _get_voice_from_provider_and_name st pn vid
      | none => none
    match voice with
    | some v => some v
    | none => _get_fallback_voice st utt.language

-- Dropping the last '-'-separated segment, as the spec words it.
def dropLastSegment (t : BStr) : BStr :=
  match lastIdxOfDash t with
  | some i => t.take i
  | none => []

-- The suffix-reducing lookup as the claim words it: try the full tag,
-- then repeatedly drop the last segment, until a mapping is found or the
-- tag is empty.
def specSuffixLookup (mapping : List (BStr × BStr × BStr)) :
    Nat → BStr → Option (BStr × BStr)
  | 0, _ => none
  | fuel + 1, t =>
    if t.isEmpty then none
    else
      match variantLookup mapping t with
      | some pv => some pv
      | none => specSuffixLookup mapping fuel (dropLastSegment t)

-- Voice resolution exactly as claim C3 states it: (1) explicit voice;
-- (2) mapping lookup by tag-suffix reduction, a dangling pair falling
-- through to the NEXT rule; (3) the configured default, a dangling pair
-- falling through; (4) language set: first aggregate voice listing the
-- tag exactly; (5) the first aggregate voice.
def claimResolve (st : RegistryState) (utt : RegUtterance) : Option RegVoice :=
  match utt.voice with
  | some v => some v
  | none =>
    let r2 : Option RegVoice :=
      match utt.language, st.settings with
      | some lang, some s =>
          (specSuffixLookup s.language_voice_mapping (lang.length + 1) lang).bind
            (fun pv => _get_voice_from_provider_and_name st pv.1 pv.2)
      | _, _ => none
    match r2 with
    | some v => some v
    | none =>
      let r3 : Option RegVoice :=
        match st.settings with
        | some s =>
            s.default_voice.bind
              (fun pv => _get_voice_from_provider_and_name st pv.1 pv.2)
        | none => none
      match r3 with
      | some v => some v
      | none =>
        match utt.language with
        | some l =>
          match st.voices.find? (fun v => _match_voice_with_language v l) with
          | some v => some v
          | none => st.voices.head?
        | none => st.voices.head?

-- Voice resolution as amended: like the claim, except that a mapping HIT
-- suppresses the configured default even when its pair resolves to no
-- voice — a dangling pair (from the mapping or the default) falls
-- through directly to rules (4)-(5).
def specResolveAmended (st : RegistryState) (utt : RegUtterance) :
    Option RegVoice :=
  match utt.voice with
  | some v => some v
  | none =>
    let fromMapping : Option (BStr × BStr) :=
      match utt.language, st.settings with
      | some lang, some s =>
          specSuffixLookup s.language_voice_mapping (lang.length + 1) lang
      | _, _ => none
    let pair : Option (BStr × BStr) :=
      match fromMapping, st.settings with
      | none, some s => s.default_voice
      | pv, _ => pv
    match pair.bind (fun pv => _get_voice_from_provider_and_name st pv.1 pv.2) with
    | some v => some v
    | none =>
      match utt.language with
      | some l =>
        match st.voices.find? (fun v => _match_voice_with_language v l) with
        | some v => some v
        | none => st.voices.head?
      | none => st.voices.head?

-- No two adjacent dashes.
def noAdjacentDash : BStr → Bool
  | [] => true
  | [_] => true
  | a :: b :: rest => !(a == 45 && b == 45) && noAdjacentDash (b :: rest)

-- A well-formed language tag: nonempty, ASCII, and with nonempty
-- '-'-separated segments (no leading, trailing or doubled dash).
def wfTag (t : BStr) : Bool :=
  !t.isEmpty && t.all (fun b => decide (b < 128)) &&
  !(t.head? == some 45) && !(t.getLast? == some 45) && noAdjacentDash t

-- ============================================================
-- Part 5: the speaker queue and playback signals
-- (src/libspiel/spiel-speaker.c)
-- ============================================================

-- The error kinds a queue entry can carry.
inductive SpielErr
  | misconfiguredVoice
  | providerFailure
deriving DecidableEq, Repr

-- The payload of a SpielGoingToSpeak element message (posted by
-- spiel_provider_src_create).
structure SEv where
  ty : Nat
  rs : Nat
  re : Nat
  mark : Option BStr
deriving DecidableEq, Repr

-- A _QueueEntry (spiel-speaker.c lines 104-113): the utterance (by an
-- abstract id), the error captured for it, the started flag and the
-- deferred messages.
structure SQEntry where
  utt : Nat
  err : Option SpielErr
  started : Bool
  deferred : List SEv
deriving DecidableEq, Repr

-- The signals a SpielSpeaker emits.
inductive SSig
  | started (u : Nat)
  | finished (u : Nat)
  | canceled (u : Nat)
  | errored (u : Nat) (e : SpielErr)
  | word (u s e : Nat)
  | sentence (u s e : Nat)
  | range (u s e : Nat)
  | mark (u : Nat) (m : Option BStr)
deriving DecidableEq, Repr

structure SpeakerState where
  queue : List SQEntry
  paused : Bool
deriving DecidableEq, Repr

-- The "speaking" property (spiel_speaker_get_property): queue nonempty.
def spiel_speaker_speaking (sp : SpeakerState) : Bool := !sp.queue.isEmpty

-- _process_going_to_speak_message (lines 1031-1081): translate one
-- GoingToSpeak message into at most one signal for the current entry's
-- utterance (WORD=1, SENTENCE=2, RANGE=3, MARK=4; anything else only
-- logs a warning).
def _process_going_to_speak_message (u : Nat) (ev : SEv) : Option SSig :=
  match ev.ty with
  | 1 => some (.word u ev.rs ev.re)
  | 2 => some (.sentence u ev.rs ev.re)
  | 3 => some (.range u ev.rs ev.re)
  | 4 => some (.mark u ev.mark)
  | _ => none

-- _speak_current_entry (lines 1154-1181) chained with
-- _advance_to_next_entry_or_finish: head entries whose error is already
-- set are terminated with utterance-error immediately, in order, until an
-- error-free head starts playing (or the queue empties).
def _drain_errored_heads : List SQEntry → List SQEntry × List SSig
  | [] => ([], [])
  | h :: t =>
    match h.err with
    | some e =>
      let (q, sigs) := _drain_errored_heads t
      (q, .errored h.utt e :: sigs)
    | none => (h :: t, [])

-- _advance_to_next_entry_or_finish (lines 1183-1223): emit the terminal
-- signal for the head entry (utterance-error when its error is set, else
-- canceled or finished), destroy it, pop it, and let the next entries
-- play (erroring out immediately those whose error is already set).
def _advance_to_next_entry_or_finish (q : List SQEntry) (canceled : Bool) :
    List SQEntry × List SSig :=
  match q with
  | [] => ([], [])
  | h :: t =>
    let sig : SSig :=
      match h.err with
      | some e => .errored h.utt e
      | none => if canceled then .canceled h.utt else .finished h.utt
    let (q2, sigs) := _drain_errored_heads t
    (q2, sig :: sigs)

-- spiel_speaker_cancel (lines 952-967): a no-op on an empty queue;
-- otherwise dump the tail (destroying those entries without any signal)
-- and terminate the current entry as canceled.
def spiel_speaker_cancel (sp : SpeakerState) : SpeakerState × List SSig :=
  match sp.queue with
  | [] => (sp, [])
  | h :: _ =>
    let (q2, sigs) := _advance_to_next_entry_or_finish [h] true
    ({ sp with queue := q2 }, sigs)

-- spiel_speaker_speak (lines 712-830): resolve a voice (the utterance's
-- own, else via the registry); when none is available, warn
-- ("No voice available!") and return — the utterance is never queued and
-- no signal is ever emitted for it.  Otherwise append a queue entry whose
-- error is MisconfiguredVoice when the voice's output format parses to no
-- usable stream type (the fmtOk parameter stands for the gst_structure
-- parse of output_format), and when the queue was empty notify "speaking"
-- and start the head entry (erroring out immediately if its error is set).
def spiel_speaker_speak (st : RegistryState) (fmtOk : RegVoice → Bool)
    (sp : SpeakerState) (uttId : Nat) (utt : RegUtterance) :
    SpeakerState × List SSig :=
  match (match utt.voice with
         | some v => some v
         | none => spiel_registry_get_voice_for_utterance st utt) with
  | none => (sp, [])
  | some v =>
    let entry : SQEntry :=
      { utt := uttId
        err := if fmtOk v then none else some .misconfiguredVoice
        started := false
        deferred := [] }
    if sp.queue.isEmpty then
      let (q2, sigs) := _drain_errored_heads (sp.queue ++ [entry])
      ({ sp with queue := q2 }, sigs)
    else
      ({ sp with queue := sp.queue ++ [entry] }, [])

-- The GStreamer bus messages the speaker reacts to during one entry's
-- lifetime.
inductive GstMsg
  | goingToSpeak (ev : SEv)
  | reachedPlaying
  | srcStateNull
deriving DecidableEq, Repr

-- _handle_gst_element_message (lines 1083-1111) and
-- _handle_gst_state_change (lines 969-1017): a GoingToSpeak message is
-- emitted directly once the entry has started, and is appended to the
-- entry's deferred list before that; the pipeline reaching PLAYING clears
-- paused and, the first time, emits utterance-started followed by the
-- deferred messages in arrival order; the entry's src element reaching
-- the NULL state (after EOS) advances the queue, emitting the entry's
-- terminal signal.
def _handle_gst_message (sp : SpeakerState) (m : GstMsg) :
    SpeakerState × List SSig :=
  match m with
  | .goingToSpeak ev =>
    match sp.queue with
    | [] => (sp, [])
    | h :: t =>
      if h.started then
        (sp, (_process_going_to_speak_message h.utt ev).toList)
      else
        ({ sp with queue := { h with deferred := h.deferred ++ [ev] } :: t }, [])
  | .reachedPlaying =>
    match sp.queue with
    | [] => ({ sp with paused := false }, [])
    | h :: t =>
      if h.started then ({ sp with paused := false }, [])
      else
        ({ sp with
            paused := false
            queue := { h with started := true, deferred := [] } :: t },
         .started h.utt
           :: h.deferred.filterMap (_process_going_to_speak_message h.utt))
  | .srcStateNull =>
    match sp.queue with
    | [] => (sp, [])
    | q =>
      let (q2, sigs) := _advance_to_next_entry_or_finish q false
      ({ sp with queue := q2 }, sigs)

def run_gst_messages (sp : SpeakerState) : List GstMsg → SpeakerState × List SSig
  | [] => (sp, [])
  | m :: rest =>
    let (sp1, sigs1) := _handle_gst_message sp m
    let (sp2, sigs2) := run_gst_messages sp1 rest
    (sp2, sigs1 ++ sigs2)

-- Successive speak calls.
def runSpeaks (st : RegistryState) (fmtOk : RegVoice → Bool) :
    SpeakerState → List (Nat × RegUtterance) → SpeakerState × List SSig
  | sp, [] => (sp, [])
  | sp, (uid, u) :: rest =>
    let (sp1, sigs1) := spiel_speaker_speak st fmtOk sp uid u
    let (sp2, sigs2) := runSpeaks st fmtOk sp1 rest
    (sp2, sigs1 ++ sigs2)

-- The head of the queue never sits with a captured error (it would have
-- been advanced past immediately).
def headErrFree (q : List SQEntry) : Bool :=
  match q with
  | [] => true
  | h :: _ => h.err == none

-- ============================================================
-- Part 6: provider enumeration failure handling
-- (src/libspiel/spiel-registry.c lines 217-347 and 555-697,
--  src/libspiel/spiel-providers-list-model.c lines 382-473)
-- ============================================================

-- The outcome of constructing one provider during enumeration: success,
-- proxy construction error, or GetVoices error.
inductive ProviderInitStep (P : Type)
  | ok (p : P)
  | proxyError
  | voicesError
deriving DecidableEq, Repr

-- _update_next_provider / _on_provider_created / _on_get_voices
-- (spiel-registry.c lines 217-314): providers are processed sequentially;
-- the first failure returns its error to the update task, aborting the
-- remainder of the pass; providers added before the failure stay.
def _update_next_provider_run {P : Type} :
    List (ProviderInitStep P) → List P × Bool
  | [] => ([], false)
  | .ok p :: rest =>
    let (ps, e) := _update_next_provider_run rest
    (p :: ps, e)
  | .proxyError :: _ => ([], true)
  | .voicesError :: _ => ([], true)

-- async_initable_init_async / _on_bus_get / _on_providers_created
-- (spiel-registry.c lines 555-697): a bus-acquire failure fails the init
-- task; any error from the provider-update pass is logged as a warning
-- ("Error creating providers") and the init task still returns TRUE.
def spiel_registry_async_init {P : Type} (busOk : Bool)
    (steps : List (ProviderInitStep P)) : Option (List P) :=
  if busOk then some (_update_next_provider_run steps).1 else none

-- spiel_providers_list_model_new / _on_bus_get / _on_providers_collected /
-- _on_initial_provider_created (spiel-providers-list-model.c lines
-- 382-473): a bus failure fails the task, and an error from ANY initial
-- provider construction is also returned to the task
-- (g_task_return_error in _on_initial_provider_created), so
-- spiel_providers_list_model_new_finish yields NULL.
def spiel_providers_list_model_async_new {P : Type} (busOk : Bool)
    (constructions : List (ProviderInitStep P)) : Option (List P) :=
  if !busOk then none
  else if constructions.any
      (fun s => match s with | .ok _ => false | _ => true) then none
  else
    some (constructions.filterMap
      (fun s => match s with | .ok p => some p | _ => none))

-- ============================================================
-- Part 7: utterance properties (src/libspiel/spiel-utterance.c)
-- ============================================================

-- Pitch, rate and volume are C doubles on which the code performs no
-- arithmetic — only stores, and the GObject range validation on the
-- property path — so they are modelled as rationals.
structure SpielUtterance where
  text : Option String
  pitch : ℚ
  rate : ℚ
  volume : ℚ
  voice : Option SpielVoice
  language : Option String
  is_ssml : Bool
deriving DecidableEq, Repr

-- spiel_utterance_init (lines 542-553).
def spiel_utterance_init : SpielUtterance :=
  { text := none, rate := 1, volume := 1, pitch := 1, voice := none,
    language := none, is_ssml := false }

-- spiel_utterance_new (lines 79-83): g_object_new with only "text" set.
def spiel_utterance_new (text : Option String) : SpielUtterance :=
  { spiel_utterance_init with text := text }

-- The C setters (lines 155-164, 195-204, 235-244): plain stores — no
-- clamping and no validation.
def spiel_utterance_set_pitch (u : SpielUtterance) (pitch : ℚ) :
    SpielUtterance :=
  { u with pitch := pitch }

def spiel_utterance_set_rate (u : SpielUtterance) (rate : ℚ) :
    SpielUtterance :=
  { u with rate := rate }

def spiel_utterance_set_volume (u : SpielUtterance) (volume : ℚ) :
    SpielUtterance :=
  { u with volume := volume }

-- Setting through the GObject property (g_object_set): the value is
-- validated against the GParamSpec range declared in
-- spiel_utterance_class_init (lines 481-504: pitch [0,2], rate [0.1,10],
-- volume [0,1], each defaulting to 1); an out-of-range value is rejected
-- with a warning and the property is left unchanged.
def g_object_set_pitch (u : SpielUtterance) (pitch : ℚ) : SpielUtterance :=
  if 0 ≤ pitch ∧ pitch ≤ 2 then spiel_utterance_set_pitch u pitch else u

def g_object_set_rate (u : SpielUtterance) (rate : ℚ) : SpielUtterance :=
  if 1/10 ≤ rate ∧ rate ≤ 10 then spiel_utterance_set_rate u rate else u

def g_object_set_volume (u : SpielUtterance) (volume : ℚ) : SpielUtterance :=
  if 0 ≤ volume ∧ volume ≤ 1 then spiel_utterance_set_volume u volume else u

-- The documented ranges.
def utteranceInRanges (u : SpielUtterance) : Prop :=
  0 ≤ u.pitch ∧ u.pitch ≤ 2 ∧ 1/10 ≤ u.rate ∧ u.rate ≤ 10 ∧
  0 ≤ u.volume ∧ u.volume ≤ 1

-- ============================================================
-- Theorems for Part 1 / Part 2
-- ============================================================

/-- C10: speech_provider_stream_reader_new and
speech_provider_stream_writer_new return NULL exactly when
`fcntl (fd, F_GETFD)` fails, i.e. when fd is not an open descriptor of the
process, and return a fresh object for every open descriptor; no property
of the descriptor other than being open is consulted. -/
theorem stream_constructors_validate_only_openness :
    ∀ (openFds : Int → Bool) (fd : Int),
      (speech_provider_stream_reader_new openFds fd).isSome = openFds fd ∧
      (speech_provider_stream_writer_new openFds fd).isSome = openFds fd ∧
      (openFds fd = true →
        speech_provider_stream_reader_new openFds fd = some ⟨fd, false, 0⟩ ∧
        speech_provider_stream_writer_new openFds fd = some ⟨fd, false⟩) := by
  intro openFds fd
  unfold speech_provider_stream_reader_new speech_provider_stream_writer_new
  cases h : openFds fd <;> simp [h]

/-- C5 (failing evaluation): for the two-byte UTF-8 mark name "é"
(bytes [195, 169], one UTF-8 character), send_event writes a
mark_name_length field of 1 — the character count, not the byte count 2 —
and only the first byte of the name follows the packed event record. -/
theorem send_event_uses_char_count_not_byte_count :
    speech_provider_stream_writer_send_event 1 0 5 [195, 169]
      = [2, 1, 0, 0, 0, 0, 5, 0, 0, 0, 1, 0, 0, 0, 195] ∧
    ([195, 169] : List Nat).length = 2 ∧ utf8len [195, 169] = 1 := by
  constructor
  · rfl
  · constructor <;> rfl

-- Helper lemmas for the stream round-trip.

theorem take_append_of_length {xs : List Nat} (ys : List Nat) {n : Nat}
    (h : xs.length = n) : (xs ++ ys).take n = xs := by
  subst h; exact List.take_left xs ys

theorem drop_append_of_length {xs : List Nat} (ys : List Nat) {n : Nat}
    (h : xs.length = n) : (xs ++ ys).drop n = ys := by
  subst h; exact List.drop_left xs ys

theorem le32_length (n : Nat) : (le32 n).length = 4 := rfl

theorem le32dec_le32 (n : Nat) : le32dec (le32 n) = n % 4294967296 := by
  simp only [le32, le32dec, List.foldr]
  omega

-- get_event on a chunk whose tag byte is not EVENT: returns none and keeps
-- the tag byte as the lookahead.
theorem get_event_skips_other_tag (b : Nat) (hb2 : b ≠ 2) (hb0 : b ≠ 0)
    (x : List Nat) (hdr : Bool) :
    speech_provider_stream_reader_get_event ⟨b :: x, hdr, 0⟩ = (none, ⟨x, hdr, b⟩) := by
  simp [speech_provider_stream_reader_get_event, _get_next_chunk_type, hb2]

-- get_audio when the AUDIO tag is already cached and the buffer starts with
-- the length field followed by the payload.
theorem get_audio_cached (n : Nat) (hn : n < 4294967296) (p : List Nat)
    (hp : p.length = n) (tail : List Nat) (hdr : Bool) :
    speech_provider_stream_reader_get_audio ⟨le32 n ++ (p ++ tail), hdr, 1⟩
      = (some p, ⟨tail, hdr, 0⟩) := by
  simp [speech_provider_stream_reader_get_audio, _get_next_chunk_type, readBytes,
    take_append_of_length _ (le32_length n), drop_append_of_length _ (le32_length n),
    le32dec_le32, Nat.mod_eq_of_lt hn,
    take_append_of_length _ hp, drop_append_of_length _ hp]

-- get_event when the EVENT tag is the head byte and the buffer continues
-- with the packed event record and the mark bytes.
theorem get_event_head (tb s e len : Nat) (hs : s < 4294967296)
    (he : e < 4294967296) (hlen : len < 4294967296)
    (mk : List Nat) (hmk : mk.length = len) (tail : List Nat) (hdr : Bool) :
    speech_provider_stream_reader_get_event
        ⟨2 :: tb :: (le32 s ++ (le32 e ++ (le32 len ++ (mk ++ tail)))), hdr, 0⟩
      = (some (tb, s, e, if len = 0 then none else some mk),
         ⟨tail, hdr, 0⟩) := by
  have h1 : ∀ rest : List Nat,
      ((le32 s ++ (le32 e ++ (le32 len ++ rest))).take 12).take 4 = le32 s := by
    intro rest; simp [le32]
  have h2 : ∀ rest : List Nat,
      (((le32 s ++ (le32 e ++ (le32 len ++ rest))).take 12).drop 4).take 4 = le32 e := by
    intro rest; simp [le32]
  have h3 : ∀ rest : List Nat,
      (((le32 s ++ (le32 e ++ (le32 len ++ rest))).take 12).drop 8).take 4 = le32 len := by
    intro rest; simp [le32]
  have h4 : ∀ rest : List Nat,
      (le32 s ++ (le32 e ++ (le32 len ++ rest))).drop 12 = rest := by
    intro rest; simp [le32]
  by_cases h0 : len = 0
  · subst h0
    have hmk0 : mk = [] := List.eq_nil_of_length_eq_zero hmk
    subst hmk0
    simp [speech_provider_stream_reader_get_event, _get_next_chunk_type, readBytes,
      h1, h2, h3, h4, le32dec_le32, Nat.mod_eq_of_lt hs, Nat.mod_eq_of_lt he]
  · have h5 : (le32 s ++ (le32 e ++ (le32 len ++ (mk ++ tail)))).drop (12 + len)
        = tail := by
      rw [← List.drop_drop len 12 (le32 s ++ (le32 e ++ (le32 len ++ (mk ++ tail)))),
        h4, drop_append_of_length _ hmk]
    simp [speech_provider_stream_reader_get_event, _get_next_chunk_type, readBytes,
      h1, h2, h3, h4, h5, le32dec_le32, Nat.mod_eq_of_lt hs, Nat.mod_eq_of_lt he,
      Nat.mod_eq_of_lt hlen, h0, take_append_of_length _ hmk,
      drop_append_of_length _ hmk]

-- One pull-loop step of the consumer on an AUDIO chunk.
theorem observe_step_audio (p : List Nat) (hp : p.length < 4294967296)
    (tail : List Nat) (fuel : Nat) :
    readerObserve (fuel + 1) ⟨streamMsgBytes (.audio p) ++ tail, true, 0⟩
      = .audio p :: readerObserve fuel ⟨tail, true, 0⟩ := by
  have hcs : p.length % 4294967296 = p.length := Nat.mod_eq_of_lt hp
  have hbytes : streamMsgBytes (.audio p) ++ tail
      = 1 :: (le32 p.length ++ (p ++ tail)) := by
    simp [streamMsgBytes, speech_provider_stream_writer_send_audio, hcs]
  rw [hbytes]
  simp [readerObserve, get_event_skips_other_tag 1 (by decide) (by decide),
    get_audio_cached p.length hp p rfl tail true]

-- One pull-loop step of the consumer on an EVENT chunk.
theorem observe_step_event (t s e : Nat) (mk : List Nat)
    (hwf : streamMsgWF (.event t s e mk) = true)
    (tail : List Nat) (fuel : Nat) :
    readerObserve (fuel + 1) ⟨streamMsgBytes (.event t s e mk) ++ tail, true, 0⟩
      = .event t s e (if mk.isEmpty then none else some mk)
          :: readerObserve fuel ⟨tail, true, 0⟩ := by
  simp only [streamMsgWF, Bool.and_eq_true, beq_iff_eq, decide_eq_true_eq] at hwf
  obtain ⟨⟨⟨⟨ht, hs⟩, he⟩, hulen⟩, hlen⟩ := hwf
  have hmod : utf8len mk % 4294967296 = mk.length := by
    rw [hulen, Nat.mod_eq_of_lt hlen]
  have hto : t % 256 = t := Nat.mod_eq_of_lt ht
  have hbytes : streamMsgBytes (.event t s e mk) ++ tail
      = 2 :: t :: (le32 s ++ (le32 e ++ (le32 mk.length ++ (mk ++ tail)))) := by
    by_cases h0 : mk.length = 0
    · have hmk0 : mk = [] := List.eq_nil_of_length_eq_zero h0
      subst hmk0
      simp [streamMsgBytes, speech_provider_stream_writer_send_event, hmod, hto]
    · simp [streamMsgBytes, speech_provider_stream_writer_send_event, hmod, h0, hto,
        List.take_length]
  rw [hbytes]
  simp only [readerObserve]
  rw [get_event_head t s e mk.length hs he hlen mk rfl tail true]
  cases mk <;> simp

-- The consumer's pull loop over a well-formed message sequence yields
-- exactly the sequence of sent chunks.
theorem observe_msgsBytes (msgs : List StreamMsg)
    (hwf : msgs.all streamMsgWF = true) :
    readerObserve msgs.length ⟨msgsBytes msgs, true, 0⟩
      = msgs.map observedOfMsg := by
  induction msgs with
  | nil => rfl
  | cons m rest ih =>
    rw [List.all_cons, Bool.and_eq_true] at hwf
    obtain ⟨hm, hrest⟩ := hwf
    rw [List.length_cons, List.map_cons,
        show msgsBytes (m :: rest) = streamMsgBytes m ++ msgsBytes rest from rfl]
    cases m with
    | audio p =>
      rw [observe_step_audio p (by simpa [streamMsgWF] using hm), ih hrest]
      rfl
    | event t s e mk =>
      rw [observe_step_event t s e mk hm, ih hrest]
      rfl

/-- C2 counterexample: for the single sent event with the non-ASCII two-byte
UTF-8 mark name "é" (bytes [195, 169]), the reader on the other end of the
pipe observes the mark name [195] — the writer truncated it to its UTF-8
character count — so the observed sequence differs from the sent one. -/
theorem stream_roundtrip_fails_for_non_ascii_mark :
    readerObserve 1
        (speech_provider_stream_reader_get_stream_header
          (mkReader (writerWire [.event 4 0 0 [195, 169]]))).2
      = [.event 4 0 0 (some [195])] ∧
    some [195] ≠ some ([195, 169] : List Nat) := by
  constructor
  · rfl
  · decide

/-- C2 (amended): for every sequence of well-formed send_audio / send_event
calls after the stream header — payload and range values fitting their
32-bit fields, and every mark name having as many UTF-8 characters as bytes
(e.g. ASCII) — a reader on the other end of the pipe validates the header
and then observes exactly the same sequence of audio payloads and events,
with the same payload bytes, event types, range values and mark names, in
the same order (an empty mark name is materialized by the reader as NULL). -/
theorem stream_write_read_roundtrip (msgs : List StreamMsg)
    (hwf : msgs.all streamMsgWF = true) :
    (speech_provider_stream_reader_get_stream_header (mkReader (writerWire msgs))).1 = true ∧
    readerObserve msgs.length
        (speech_provider_stream_reader_get_stream_header (mkReader (writerWire msgs))).2
      = msgs.map observedOfMsg := by
  have hhdr : speech_provider_stream_reader_get_stream_header (mkReader (writerWire msgs))
      = (true, ⟨msgsBytes msgs, true, 0⟩) := by
    simp [speech_provider_stream_reader_get_stream_header, mkReader, writerWire,
      readBytes, speech_provider_stream_writer_send_stream_header,
      take_append_of_length _ (show speechProviderStreamHeaderBytes.length = 4 from rfl),
      drop_append_of_length _ (show speechProviderStreamHeaderBytes.length = 4 from rfl)]
  rw [hhdr]
  exact ⟨rfl, observe_msgsBytes msgs hwf⟩

/-- Witness for the round-trip theorem at a concrete message sequence. -/
theorem stream_write_read_roundtrip_witness :
    ([StreamMsg.audio [7, 8, 9], .event 1 2 3 [109, 97], .event 4 0 0 []].all streamMsgWF = true) ∧
    ((speech_provider_stream_reader_get_stream_header
        (mkReader (writerWire [StreamMsg.audio [7, 8, 9], .event 1 2 3 [109, 97], .event 4 0 0 []]))).1 = true ∧
     readerObserve [StreamMsg.audio [7, 8, 9], .event 1 2 3 [109, 97], .event 4 0 0 []].length
        (speech_provider_stream_reader_get_stream_header
          (mkReader (writerWire [StreamMsg.audio [7, 8, 9], .event 1 2 3 [109, 97], .event 4 0 0 []]))).2
      = [StreamMsg.audio [7, 8, 9], .event 1 2 3 [109, 97], .event 4 0 0 []].map observedOfMsg) :=
  ⟨by decide,
   stream_write_read_roundtrip
     [StreamMsg.audio [7, 8, 9], .event 1 2 3 [109, 97], .event 4 0 0 []] (by decide)⟩

-- strcmp returns 0 exactly on equal strings.

theorem strcmp3_eq_zero (xs ys : List Char) : strcmp3 xs ys = 0 ↔ xs = ys := by
  induction xs generalizing ys with
  | nil => cases ys <;> simp [strcmp3]
  | cons x xs ih =>
    cases ys with
    | nil => simp [strcmp3]
    | cons y ys =>
      by_cases hxy : x = y
      · subst hxy
        simp [strcmp3, ih]
      · have hne : (x.toNat : Int) - (y.toNat : Int) ≠ 0 := by
          intro hc
          apply hxy
          have htn : x.toNat = y.toNat := by omega
          rw [← Char.ofNat_toNat x, ← Char.ofNat_toNat y, htn]
        simp [strcmp3, hxy, hne]

theorem g_strcmp0_eq_zero (a b : String) : g_strcmp0 a b = 0 ↔ a = b := by
  rw [g_strcmp0, strcmp3_eq_zero]
  constructor
  · intro h
    cases a
    cases b
    exact congrArg String.mk h
  · intro h
    rw [h]

-- Symmetry of == for lawful BEq types.
theorem beq_symm_deceq {α : Type} [BEq α] [LawfulBEq α] (x y : α) :
    (x == y) = (y == x) := by
  by_cases h : x = y
  · rw [h]
  · rw [beq_eq_false_iff_ne.mpr h, beq_eq_false_iff_ne.mpr (Ne.symm h)]

/-- C4 counterexample: two voices on the same provider with the same name
and identifier but different languages lists agree on only three of the
four components, yet spiel_voice_compare returns 0 — compare never
consults the languages, so "compare returns 0 exactly when the two voices
agree on that four-tuple" is false. -/
theorem spiel_voice_compare_ignores_languages :
    spiel_voice_compare (fun _ => "org.mock.Speech.Provider")
        ⟨"voice", "id1", ["en"], "audio/x-raw", 0, some 0⟩
        ⟨"voice", "id1", ["fr"], "audio/x-raw", 0, some 0⟩ = 0 ∧
    ¬ voiceFourTupleAgree (fun _ => "org.mock.Speech.Provider")
        ⟨"voice", "id1", ["en"], "audio/x-raw", 0, some 0⟩
        ⟨"voice", "id1", ["fr"], "audio/x-raw", 0, some 0⟩ := by
  constructor
  · decide
  · unfold voiceFourTupleAgree
    decide

/-- C4 (amended): spiel_voice_equal is reflexive, symmetric and transitive;
it never consults output_format; equal voices hash equally under
spiel_voice_hash; assuming distinct live provider objects have distinct,
nonempty well-known names (the registry invariant), spiel_voice_equal
holds iff the two voices agree on the four-tuple (provider_identifier,
name, identifier, languages); and spiel_voice_compare returns 0 exactly
when the two voices agree on the THREE-tuple (provider_identifier, name,
identifier) — the languages are not part of the ordering. -/
theorem spiel_voice_equal_hash_compare_laws (wkn : Nat → String)
    (a b c : SpielVoice)
    (hco : providerPairCoherent wkn a.provider b.provider = true) :
    spiel_voice_equal a a = true ∧
    spiel_voice_equal a b = spiel_voice_equal b a ∧
    (spiel_voice_equal a b = true → spiel_voice_equal b c = true →
      spiel_voice_equal a c = true) ∧
    (spiel_voice_equal a b = true →
      spiel_voice_hash wkn a = spiel_voice_hash wkn b) ∧
    (spiel_voice_equal a b = true ↔ voiceFourTupleAgree wkn a b) ∧
    (spiel_voice_compare wkn a b = 0 ↔ voiceThreeTupleAgree wkn a b) := by
  refine ⟨?_, ?_, ?_, ?_, ?_, ?_⟩
  · simp [spiel_voice_equal]
  · simp only [spiel_voice_equal]
    rw [beq_symm_deceq a.provider, beq_symm_deceq a.name,
      beq_symm_deceq a.identifier, beq_symm_deceq a.languages]
  · intro h1 h2
    simp only [spiel_voice_equal, Bool.and_eq_true, beq_iff_eq] at h1 h2 ⊢
    obtain ⟨⟨⟨p1, n1⟩, i1⟩, l1⟩ := h1
    obtain ⟨⟨⟨p2, n2⟩, i2⟩, l2⟩ := h2
    exact ⟨⟨⟨p1.trans p2, n1.trans n2⟩, i1.trans i2⟩, l1.trans l2⟩
  · intro h
    simp only [spiel_voice_equal, Bool.and_eq_true, beq_iff_eq] at h
    obtain ⟨⟨⟨hp, hn⟩, hi⟩, hl⟩ := h
    simp [spiel_voice_hash, hp, hn, hi, hl]
  · constructor
    · intro h
      simp only [spiel_voice_equal, Bool.and_eq_true, beq_iff_eq] at h
      obtain ⟨⟨⟨hp, hn⟩, hi⟩, hl⟩ := h
      exact ⟨by rw [hp], hn, hi, hl⟩
    · rintro ⟨hp, hn, hi, hl⟩
      simp only [spiel_voice_equal, Bool.and_eq_true, beq_iff_eq]
      refine ⟨⟨⟨?_, hn⟩, hi⟩, hl⟩
      rcases hap : a.provider with _ | p <;> rcases hbp : b.provider with _ | q
      · rfl
      · rw [hap, hbp] at hp hco
        simp only [wellKnownNameOf] at hp
        simp only [providerPairCoherent, bne_iff_ne, ne_eq] at hco
        exact absurd hp.symm hco
      · rw [hap, hbp] at hp hco
        simp only [wellKnownNameOf] at hp
        simp only [providerPairCoherent, bne_iff_ne, ne_eq] at hco
        exact absurd hp hco
      · rw [hap, hbp] at hp hco
        simp only [wellKnownNameOf] at hp
        simp only [providerPairCoherent, Bool.or_eq_true, bne_iff_ne, ne_eq,
          beq_iff_eq] at hco
        rcases hco with h | h
        · exact absurd hp h
        · rw [h]
  · rw [spiel_voice_compare]
    constructor
    · intro h
      by_cases h1 : g_strcmp0 (wellKnownNameOf wkn a.provider)
          (wellKnownNameOf wkn b.provider) ≠ 0
      · rw [if_pos h1] at h
        exact absurd h h1
      · rw [if_neg h1] at h
        push_neg at h1
        by_cases h2 : g_strcmp0 a.name b.name ≠ 0
        · rw [if_pos h2] at h
          exact absurd h h2
        · rw [if_neg h2] at h
          push_neg at h2
          exact ⟨(g_strcmp0_eq_zero _ _).mp h1, (g_strcmp0_eq_zero _ _).mp h2,
            (g_strcmp0_eq_zero _ _).mp h⟩
    · rintro ⟨hp, hn, hi⟩
      have h1 : g_strcmp0 (wellKnownNameOf wkn a.provider)
          (wellKnownNameOf wkn b.provider) = 0 := (g_strcmp0_eq_zero _ _).mpr hp
      have h2 : g_strcmp0 a.name b.name = 0 := (g_strcmp0_eq_zero _ _).mpr hn
      have h3 : g_strcmp0 a.identifier b.identifier = 0 :=
        (g_strcmp0_eq_zero _ _).mpr hi
      simp [h1, h2, h3]

/-- Witness for the voice laws at concrete voices sharing one provider. -/
theorem spiel_voice_equal_hash_compare_laws_witness :
    (providerPairCoherent (fun _ => "org.mock.Speech.Provider")
      (some 0) (some 0) = true) ∧
    (spiel_voice_equal ⟨"n", "i", ["en"], "audio/x-raw", 0, some 0⟩
        ⟨"n", "i", ["en"], "audio/x-raw", 0, some 0⟩ = true ∧
     spiel_voice_equal ⟨"n", "i", ["en"], "audio/x-raw", 0, some 0⟩
         ⟨"n", "i", ["en"], "audio/x-spiel", 7, some 0⟩
       = spiel_voice_equal ⟨"n", "i", ["en"], "audio/x-spiel", 7, some 0⟩
           ⟨"n", "i", ["en"], "audio/x-raw", 0, some 0⟩ ∧
     (spiel_voice_equal ⟨"n", "i", ["en"], "audio/x-raw", 0, some 0⟩
          ⟨"n", "i", ["en"], "audio/x-spiel", 7, some 0⟩ = true →
      spiel_voice_equal ⟨"n", "i", ["en"], "audio/x-spiel", 7, some 0⟩
          ⟨"n", "i", ["en"], "audio/x-raw", 1, some 0⟩ = true →
      spiel_voice_equal ⟨"n", "i", ["en"], "audio/x-raw", 0, some 0⟩
          ⟨"n", "i", ["en"], "audio/x-raw", 1, some 0⟩ = true) ∧
     (spiel_voice_equal ⟨"n", "i", ["en"], "audio/x-raw", 0, some 0⟩
          ⟨"n", "i", ["en"], "audio/x-spiel", 7, some 0⟩ = true →
      spiel_voice_hash (fun _ => "org.mock.Speech.Provider")
          ⟨"n", "i", ["en"], "audio/x-raw", 0, some 0⟩
        = spiel_voice_hash (fun _ => "org.mock.Speech.Provider")
            ⟨"n", "i", ["en"], "audio/x-spiel", 7, some 0⟩) ∧
     (spiel_voice_equal ⟨"n", "i", ["en"], "audio/x-raw", 0, some 0⟩
          ⟨"n", "i", ["en"], "audio/x-spiel", 7, some 0⟩ = true ↔
      voiceFourTupleAgree (fun _ => "org.mock.Speech.Provider")
        ⟨"n", "i", ["en"], "audio/x-raw", 0, some 0⟩
        ⟨"n", "i", ["en"], "audio/x-spiel", 7, some 0⟩) ∧
     (spiel_voice_compare (fun _ => "org.mock.Speech.Provider")
          ⟨"n", "i", ["en"], "audio/x-raw", 0, some 0⟩
          ⟨"n", "i", ["en"], "audio/x-spiel", 7, some 0⟩ = 0 ↔
      voiceThreeTupleAgree (fun _ => "org.mock.Speech.Provider")
        ⟨"n", "i", ["en"], "audio/x-raw", 0, some 0⟩
        ⟨"n", "i", ["en"], "audio/x-spiel", 7, some 0⟩)) :=
  ⟨by decide,
   spiel_voice_equal_hash_compare_laws (fun _ => "org.mock.Speech.Provider")
     ⟨"n", "i", ["en"], "audio/x-raw", 0, some 0⟩
     ⟨"n", "i", ["en"], "audio/x-spiel", 7, some 0⟩
     ⟨"n", "i", ["en"], "audio/x-raw", 1, some 0⟩ (by decide)⟩

-- Helper lemmas for voice resolution.

/-- C3 counterexample: with mapping {"en" → (P, V)} where provider P does
not exist, a configured default (B, W) that resolves to an existing voice
vW, and aggregate voices [vX, vW], resolving an utterance with language
"en" under the claimed rule order yields the default's voice vW, but the
code skips the default after the mapping hit and falls through to the
aggregate fallback, yielding vX.  (Bytes: "en" = [101,110], "B" = [66],
"P" = [80], "V" = [86], "W" = [87], "R" = [82].) -/
theorem resolution_skips_default_after_dangling_mapping :
    claimResolve
        ⟨[([66], [⟨[119], [87], [[102, 114]], [66]⟩])],
         [⟨[120], [88], [[100, 101]], [82]⟩, ⟨[119], [87], [[102, 114]], [66]⟩],
         some ⟨[([101, 110], ([80], [86]))], some ([66], [87])⟩⟩
        ⟨none, some [101, 110]⟩
      = some ⟨[119], [87], [[102, 114]], [66]⟩ ∧
    spiel_registry_get_voice_for_utterance
        ⟨[([66], [⟨[119], [87], [[102, 114]], [66]⟩])],
         [⟨[120], [88], [[100, 101]], [82]⟩, ⟨[119], [87], [[102, 114]], [66]⟩],
         some ⟨[([101, 110], ([80], [86]))], some ([66], [87])⟩⟩
        ⟨none, some [101, 110]⟩
      = some ⟨[120], [88], [[100, 101]], [82]⟩ ∧
    (⟨[119], [87], [[102, 114]], [66]⟩ : RegVoice)
      ≠ ⟨[120], [88], [[100, 101]], [82]⟩ := by
  refine ⟨by decide, by decide, by decide⟩

-- The fallback's findIdx?-based selection picks the first match, or the
-- head of the aggregate when nothing matches (position stays 0).
theorem get?_findIdx?_eq_find? (l : List RegVoice) (p : RegVoice → Bool) :
    l.get? ((l.findIdx? p).getD 0)
      = match l.find? p with
        | some v => some v
        | none => l.head? := by
  induction l with
  | nil => rfl
  | cons x xs ih =>
    by_cases hp : p x
    · rw [List.findIdx?_cons, if_pos hp, List.find?_cons_of_pos _ hp]
      rfl
    · rw [List.findIdx?_cons, if_neg hp, List.find?_cons_of_neg _ hp,
        List.findIdx?_succ]
      cases hfi : List.findIdx? p xs with
      | none =>
        have hfn : List.find? p xs = none := by
          rw [List.find?_eq_none]
          intro a ha
          have := List.findIdx?_eq_none_iff.mp hfi a ha
          simp [this]
        rw [hfn]
        simp
      | some i =>
        cases hf : List.find? p xs with
        | none =>
          exfalso
          have hall := List.find?_eq_none.mp hf
          have : List.findIdx? p xs = none := by
            rw [List.findIdx?_eq_none_iff]
            intro a ha
            have := hall a ha
            simpa using this
          rw [this] at hfi
          exact Option.noConfusion hfi
        | some v =>
          have ihx := ih
          rw [hfi, hf] at ihx
          simp only [Option.getD_some] at ihx
          simp only [Option.map_some', Option.getD_some]
          rw [List.get?_cons_succ]
          exact ihx

theorem fallback_eq (st : RegistryState) (lang : Option BStr) :
    _get_fallback_voice st lang
      = match lang with
        | some l =>
            (match st.voices.find? (fun v => _match_voice_with_language v l) with
             | some v => some v
             | none => st.voices.head?)
        | none => st.voices.head? := by
  cases lang with
  | none => exact List.get?_zero st.voices
  | some l =>
    exact get?_findIdx?_eq_find? st.voices (fun v => _match_voice_with_language v l)

-- Characterization of lastIdxOfDash.

theorem lastIdxOfDash_eq_none_iff (t : BStr) :
    lastIdxOfDash t = none ↔ 45 ∉ t := by
  induction t with
  | nil => simp [lastIdxOfDash]
  | cons b rest ih =>
    simp only [lastIdxOfDash]
    cases h : lastIdxOfDash rest with
    | some i =>
      have hmem : 45 ∈ rest := by
        by_contra hc
        rw [← ih] at hc
        rw [hc] at h
        exact Option.noConfusion h
      simp [hmem]
    | none =>
      have h45 : 45 ∉ rest := ih.mp h
      by_cases hb : b = 45
      · subst hb
        simp
      · rw [if_neg hb]
        simp [h45]
        omega

theorem lastIdxOfDash_append_no_dash (pre post : BStr) (h : 45 ∉ post) :
    lastIdxOfDash (pre ++ 45 :: post) = some pre.length := by
  induction pre with
  | nil =>
    simp only [List.nil_append, lastIdxOfDash]
    rw [(lastIdxOfDash_eq_none_iff post).mpr h]
    simp
  | cons b pre ih =>
    have hstep : lastIdxOfDash ((b :: pre) ++ 45 :: post)
        = match lastIdxOfDash (pre ++ 45 :: post) with
          | some i => some (i + 1)
          | none => if b = 45 then some 0 else none := rfl
    rw [hstep, ih]
    rfl

theorem lastIdxOfDash_split (t : BStr) (i : Nat)
    (h : lastIdxOfDash t = some i) :
    ∃ pre post, t = pre ++ 45 :: post ∧ pre.length = i ∧ 45 ∉ post := by
  induction t generalizing i with
  | nil => exact Option.noConfusion h
  | cons b rest ih =>
    simp only [lastIdxOfDash] at h
    cases hr : lastIdxOfDash rest with
    | some j =>
      rw [hr] at h
      have hij : i = j + 1 := (Option.some.injEq _ _ ▸ h).symm
      obtain ⟨pre, post, ht, hlen, hpost⟩ := ih j hr
      refine ⟨b :: pre, post, ?_, ?_, hpost⟩
      · rw [ht]
        rfl
      · simp [hlen, hij]
    | none =>
      rw [hr] at h
      by_cases hb : b = 45
      · rw [if_pos hb] at h
        have hi0 : i = 0 := (Option.some.injEq _ _ ▸ h).symm
        subst hb
        exact ⟨[], rest, rfl, by simp [hi0], (lastIdxOfDash_eq_none_iff rest).mp hr⟩
      · rw [if_neg hb] at h
        exact Option.noConfusion h

theorem lastIdxOfDash_lt (t : BStr) (i : Nat)
    (h : lastIdxOfDash t = some i) : i < t.length := by
  obtain ⟨pre, post, ht, hlen, _⟩ := lastIdxOfDash_split t i h
  rw [ht, List.length_append]
  simp [← hlen]

-- Fuel does not matter once it exceeds the current tag's length: every
-- loop iteration strictly shortens the tag.
theorem loop_fuel_irrel (m : List (BStr × BStr × BStr)) :
    ∀ f cur bound, cur.length < f →
      mappingLookupLoop m f cur bound
        = mappingLookupLoop m (cur.length + 1) cur bound := by
  intro f
  induction f using Nat.strong_induction_on with
  | _ f ih =>
    intro cur bound hf
    cases f with
    | zero => omega
    | succ f' =>
      simp only [mappingLookupLoop]
      cases hv : variantLookup m cur with
      | some pv => simp [hv]
      | none =>
        simp only [hv]
        cases hli : lastIdxOfDash
            (match bound with | none => cur | some b => cur.take b) with
        | none => simp [hli]
        | some i =>
          simp only [hli]
          have hi : i < cur.length := by
            have hlt := lastIdxOfDash_lt _ _ hli
            cases bound with
            | none => exact hlt
            | some b =>
              have hb : (cur.take b).length ≤ cur.length := by
                rw [List.length_take]
                exact min_le_right _ _
              simp only at hlt
              omega
          have hlen : (cur.take i).length = i := by
            rw [List.length_take]
            exact min_eq_left (Nat.le_of_lt hi)
          rw [ih f' (by omega) (cur.take i) (if i = 0 then none else some (i - 1))
              (by omega),
            ih cur.length (by omega) (cur.take i)
              (if i = 0 then none else some (i - 1)) (by omega)]

theorem spec_fuel_irrel (m : List (BStr × BStr × BStr)) :
    ∀ f t, t.length < f →
      specSuffixLookup m f t = specSuffixLookup m (t.length + 1) t := by
  intro f
  induction f using Nat.strong_induction_on with
  | _ f ih =>
    intro t hf
    cases f with
    | zero => omega
    | succ f' =>
      simp only [specSuffixLookup]
      cases ht : t.isEmpty with
      | true => simp [ht]
      | false =>
        simp only [ht, Bool.false_eq_true, if_false]
        cases hv : variantLookup m t with
        | some pv => simp [hv]
        | none =>
          simp only [hv]
          have hne : t ≠ [] := by
            cases t
            · simp at ht
            · simp
          have hpos : 0 < t.length := List.length_pos.mpr hne
          have hlt : (dropLastSegment t).length < t.length := by
            unfold dropLastSegment
            cases hli : lastIdxOfDash t with
            | none => simpa using hpos
            | some i =>
              have hi := lastIdxOfDash_lt t i hli
              rw [List.length_take, min_eq_left (Nat.le_of_lt hi)]
              exact hi
          rw [ih f' (by omega) _ (by omega), ih t.length (by omega) _ hlt]

-- Removing the final (non-dash) byte from the search space does not change
-- the last dash found.
theorem lastIdxOfDash_take_pred (cur : BStr) (hne : cur ≠ [])
    (hlast : cur.getLast? ≠ some 45) :
    lastIdxOfDash (cur.take (cur.length - 1)) = lastIdxOfDash cur := by
  induction cur with
  | nil => exact absurd rfl hne
  | cons a rest ih =>
    cases rest with
    | nil =>
      have ha : a ≠ 45 := by
        intro hc
        exact hlast (by rw [hc]; rfl)
      simp [lastIdxOfDash, ha]
    | cons b rest' =>
      have hlast' : (b :: rest').getLast? ≠ some 45 := by
        rwa [List.getLast?_cons_cons] at hlast
      have ihx := ih (by simp) hlast'
      have htake : (a :: b :: rest').take ((a :: b :: rest').length - 1)
          = a :: ((b :: rest').take ((b :: rest').length - 1)) := by
        simp
      rw [htake]
      have hstep1 : lastIdxOfDash (a :: ((b :: rest').take ((b :: rest').length - 1)))
          = match lastIdxOfDash ((b :: rest').take ((b :: rest').length - 1)) with
            | some i => some (i + 1)
            | none => if a = 45 then some 0 else none := rfl
      have hstep2 : lastIdxOfDash (a :: b :: rest')
          = match lastIdxOfDash (b :: rest') with
            | some i => some (i + 1)
            | none => if a = 45 then some 0 else none := rfl
      rw [hstep1, hstep2, ihx]

-- A boundary of length-1 (as set by the loop) is equivalent to no boundary
-- when the tag does not end in a dash.
theorem loop_bound_bridge (m : List (BStr × BStr × BStr)) (fuel : Nat)
    (cur : BStr) (hne : cur ≠ []) (hlast : cur.getLast? ≠ some 45) :
    mappingLookupLoop m fuel cur (some (cur.length - 1))
      = mappingLookupLoop m fuel cur none := by
  cases fuel with
  | zero => rfl
  | succ f =>
    simp only [mappingLookupLoop]
    rw [lastIdxOfDash_take_pred cur hne hlast]

theorem noAdjacentDash_append_left (pre l : BStr)
    (h : noAdjacentDash (pre ++ l) = true) : noAdjacentDash pre = true := by
  induction pre with
  | nil => rfl
  | cons a rest ih =>
    cases rest with
    | nil => rfl
    | cons b rest' =>
      have hstep : noAdjacentDash ((a :: b :: rest') ++ l)
          = (!(a == 45 && b == 45) && noAdjacentDash ((b :: rest') ++ l)) := rfl
      rw [hstep, Bool.and_eq_true] at h
      have hstep2 : noAdjacentDash (a :: b :: rest')
          = (!(a == 45 && b == 45) && noAdjacentDash (b :: rest')) := rfl
      rw [hstep2, Bool.and_eq_true]
      exact ⟨h.1, ih h.2⟩

theorem noAdjacentDash_last_before_dash (pre post : BStr)
    (h : noAdjacentDash (pre ++ 45 :: post) = true) (hne : pre ≠ []) :
    pre.getLast? ≠ some 45 := by
  induction pre with
  | nil => exact absurd rfl hne
  | cons a rest ih =>
    cases rest with
    | nil =>
      have hstep : noAdjacentDash ([a] ++ 45 :: post)
          = (!(a == 45 && (45 : Nat) == 45) && noAdjacentDash (45 :: post)) := rfl
      rw [hstep, Bool.and_eq_true] at h
      intro hc
      have ha : a = 45 := by simpa using hc
      rw [ha] at h
      simp at h
    | cons b rest' =>
      rw [List.getLast?_cons_cons]
      apply ih ?_ (by simp)
      have hstep : noAdjacentDash ((a :: b :: rest') ++ 45 :: post)
          = (!(a == 45 && b == 45) && noAdjacentDash ((b :: rest') ++ 45 :: post)) := rfl
      rw [hstep, Bool.and_eq_true] at h
      exact h.2

theorem utf8len_ascii :
    ∀ t : BStr, t.all (fun b => decide (b < 128)) = true → utf8len t = t.length := by
  intro t
  induction t with
  | nil => intro _; rfl
  | cons b rest ih =>
    intro h
    rw [List.all_cons, Bool.and_eq_true] at h
    have hb : b < 128 := by simpa using h.1
    have hdiv : (b / 64 != 2) = true := by
      simp only [bne_iff_ne, ne_eq]
      omega
    unfold utf8len
    rw [List.countP_cons]
    simp only [hdiv, if_true]
    have ihx := ih h.2
    unfold utf8len at ihx
    rw [ihx]
    simp

-- On well-formed tags the C loop performs exactly the spec's suffix
-- reduction: try the full tag, then drop the last segment, and so on.
theorem loop_eq_spec (m : List (BStr × BStr × BStr)) :
    ∀ n t, t.length ≤ n → wfTag t = true →
      mappingLookupLoop m (t.length + 1) t none
        = specSuffixLookup m (t.length + 1) t := by
  intro n
  induction n with
  | zero =>
    intro t ht hwf
    have h0 : t = [] := List.eq_nil_of_length_eq_zero (Nat.le_zero.mp ht)
    rw [h0] at hwf
    simp [wfTag] at hwf
  | succ n ih =>
    intro t ht hwf
    have hwf2 := hwf
    simp only [wfTag, Bool.and_eq_true, Bool.not_eq_true',
      beq_eq_false_iff_ne, ne_eq] at hwf2
    obtain ⟨⟨⟨⟨hempty, hascii⟩, hhead⟩, hlast⟩, hadj⟩ := hwf2
    have hne : t ≠ [] := by
      cases t
      · simp at hempty
      · simp
    have hloop : mappingLookupLoop m (t.length + 1) t none
        = match variantLookup m t with
          | some pv => some pv
          | none =>
            match lastIdxOfDash t with
            | none => none
            | some i =>
                mappingLookupLoop m t.length (t.take i)
                  (if i = 0 then none else some (i - 1)) := rfl
    have hspec : specSuffixLookup m (t.length + 1) t
        = match variantLookup m t with
          | some pv => some pv
          | none => specSuffixLookup m t.length (dropLastSegment t) := by
      simp [specSuffixLookup, hempty]
    cases hv : variantLookup m t with
    | some pv => rw [hloop, hspec, hv]
    | none =>
      have hloop2 : mappingLookupLoop m (t.length + 1) t none
          = match lastIdxOfDash t with
            | none => none
            | some i =>
                mappingLookupLoop m t.length (t.take i)
                  (if i = 0 then none else some (i - 1)) := by
        rw [hloop, hv]
      have hspec2 : specSuffixLookup m (t.length + 1) t
          = specSuffixLookup m t.length (dropLastSegment t) := by
        rw [hspec, hv]
      rw [hloop2, hspec2]
      cases hli : lastIdxOfDash t with
      | none =>
        show (none : Option (BStr × BStr))
          = specSuffixLookup m t.length (dropLastSegment t)
        rw [show dropLastSegment t = [] from by simp [dropLastSegment, hli]]
        have hpos : 0 < t.length := List.length_pos.mpr hne
        obtain ⟨k, hk⟩ : ∃ k, t.length = k + 1 := ⟨t.length - 1, by omega⟩
        rw [hk]
        simp [specSuffixLookup]
      | some i =>
        show mappingLookupLoop m t.length (t.take i)
            (if i = 0 then none else some (i - 1))
          = specSuffixLookup m t.length (dropLastSegment t)
        obtain ⟨pre, post, htsplit, hplen, hpost⟩ := lastIdxOfDash_split t i hli
        have hprene : pre ≠ [] := by
          intro hc
          rw [hc] at htsplit
          rw [htsplit] at hhead
          simp at hhead
        have hi1 : 1 ≤ i := by
          cases hpre0 : pre with
          | nil => exact absurd hpre0 hprene
          | cons p pre' =>
            rw [hpre0] at hplen
            simp at hplen
            omega
        have htake : t.take i = pre := by
          rw [htsplit]
          exact take_append_of_length _ hplen
        have hilt : i < t.length := lastIdxOfDash_lt t i hli
        have hasciipre : pre.all (fun b => decide (b < 128)) = true := by
          rw [htsplit, List.all_append, Bool.and_eq_true] at hascii
          exact hascii.1
        have hheadpre : pre.head? ≠ some 45 := by
          cases hpre0 : pre with
          | nil => exact absurd hpre0 hprene
          | cons p pre' =>
            rw [hpre0] at htsplit
            rw [htsplit] at hhead
            simp only [List.cons_append, List.head?_cons] at hhead
            simpa using hhead
        have hlastpre : pre.getLast? ≠ some 45 :=
          noAdjacentDash_last_before_dash pre post (htsplit ▸ hadj) hprene
        have hadjpre : noAdjacentDash pre = true :=
          noAdjacentDash_append_left pre (45 :: post) (htsplit ▸ hadj)
        have hemptypre : pre.isEmpty = false := by
          cases hpre0 : pre with
          | nil => exact absurd hpre0 hprene
          | cons p pre' => rfl
        have hwfpre : wfTag pre = true := by
          simp only [wfTag, Bool.and_eq_true, Bool.not_eq_true',
            beq_eq_false_iff_ne, ne_eq]
          exact ⟨⟨⟨⟨hemptypre, hasciipre⟩, hheadpre⟩, hlastpre⟩, hadjpre⟩
        rw [show (if i = 0 then none else some (i - 1)) = some (i - 1) from
          if_neg (by omega)]
        rw [htake]
        rw [show (i - 1) = pre.length - 1 by omega]
        rw [loop_bound_bridge m t.length pre hprene hlastpre]
        rw [loop_fuel_irrel m t.length pre none (by omega)]
        rw [ih pre (by omega) hwfpre]
        simp only [dropLastSegment, hli, htake]
        rw [spec_fuel_irrel m t.length pre (by omega)]

/-- C3 (amended): for every registry state and every utterance whose
language tag, when set, is ASCII with nonempty '-'-separated segments,
voice resolution follows: (1) the utterance's explicit voice; (2) else the
configured language mapping looked up by tag-suffix reduction (full tag,
then repeatedly drop the last segment); (3) else the configured default —
consulted only when the mapping lookup produced NO pair, so a mapping hit
whose (provider, voice) pair names a nonexistent provider or voice falls
through directly to (4)-(5), bypassing the default; (4) else, with a
language set, the first aggregate voice whose languages contain the tag
exactly; (5) else the first aggregate voice.  A dangling default pair also
falls through to (4)-(5). -/
theorem get_voice_for_utterance_follows_amended_rules (st : RegistryState)
    (utt : RegUtterance)
    (hwf : ∀ l, utt.language = some l → wfTag l = true) :
    spiel_registry_get_voice_for_utterance st utt = specResolveAmended st utt := by
  have hbind : ∀ (pair : Option (BStr × BStr)),
      (match pair with
       | some (pn, vid) => _get_voice_from_provider_and_name st pn vid
       | none => none)
        = pair.bind (fun pv => _get_voice_from_provider_and_name st pv.1 pv.2) := by
    intro pair
    cases pair with
    | none => rfl
    | some pv => cases pv; rfl
  have hmap : (match utt.language, st.settings with
       | some lang, some s =>
           spiel_registry_language_voice_lookup s.language_voice_mapping lang
       | _, _ => none)
      = (match utt.language, st.settings with
         | some lang, some s =>
             specSuffixLookup s.language_voice_mapping (lang.length + 1) lang
         | _, _ => none) := by
    cases hlang : utt.language with
    | none => cases st.settings <;> rfl
    | some lang =>
      cases hs : st.settings with
      | none => rfl
      | some s =>
        show spiel_registry_language_voice_lookup s.language_voice_mapping lang
          = specSuffixLookup s.language_voice_mapping (lang.length + 1) lang
        have hw := hwf lang hlang
        have hascii : lang.all (fun b => decide (b < 128)) = true := by
          simp only [wfTag, Bool.and_eq_true] at hw
          exact hw.1.1.1.2
        have hulen : utf8len lang = lang.length := utf8len_ascii lang hascii
        unfold spiel_registry_language_voice_lookup
        rw [hulen, List.take_length]
        exact loop_eq_spec s.language_voice_mapping lang.length lang (le_refl _) hw
  unfold spiel_registry_get_voice_for_utterance specResolveAmended
  cases hv : utt.voice with
  | some v => rfl
  | none =>
    simp only [hmap, hbind, fallback_eq]

/-- Witness for the amended resolution rules at a concrete registry. -/
theorem get_voice_for_utterance_follows_amended_rules_witness :
    (∀ l, (⟨none, some [101, 110]⟩ : RegUtterance).language = some l →
      wfTag l = true) ∧
    spiel_registry_get_voice_for_utterance
        ⟨[([66], [⟨[119], [87], [[102, 114]], [66]⟩])],
         [⟨[120], [88], [[100, 101]], [82]⟩, ⟨[119], [87], [[102, 114]], [66]⟩],
         some ⟨[([101, 110], ([80], [86]))], some ([66], [87])⟩⟩
        ⟨none, some [101, 110]⟩
      = specResolveAmended
          ⟨[([66], [⟨[119], [87], [[102, 114]], [66]⟩])],
           [⟨[120], [88], [[100, 101]], [82]⟩, ⟨[119], [87], [[102, 114]], [66]⟩],
           some ⟨[([101, 110], ([80], [86]))], some ([66], [87])⟩⟩
          ⟨none, some [101, 110]⟩ :=
  ⟨fun l hl => by
      have hl2 : [101, 110] = l := by injection hl
      rw [← hl2]
      decide,
   get_voice_for_utterance_follows_amended_rules _ _
     (fun l hl => by
       have hl2 : [101, 110] = l := by injection hl
       rw [← hl2]
       decide)⟩

-- ============================================================
-- Theorems for Part 5 (speaker)
-- ============================================================

/-- C1: the claim fails in the code. When the aggregated voices list is
empty, voice resolution yields no voice and spiel_speaker_speak returns
having queued nothing and emitted no signal at all — the utterance gets
no terminal signal, and in particular no NoProvidersAvailable error. -/
theorem speak_on_empty_registry_silently_drops_utterance :
    spiel_registry_get_voice_for_utterance ⟨[], [], none⟩ ⟨none, none⟩
      = none ∧
    spiel_speaker_speak ⟨[], [], none⟩ (fun _ => true) ⟨[], false⟩ 0
        ⟨none, none⟩
      = (⟨[], false⟩, []) :=
  ⟨rfl, rfl⟩

theorem drain_headErrFree (q : List SQEntry) :
    headErrFree (_drain_errored_heads q).1 = true := by
  induction q with
  | nil => rfl
  | cons h t ih =>
    cases he : h.err with
    | none => simp [_drain_errored_heads, he, headErrFree]
    | some e => simpa [_drain_errored_heads, he] using ih

theorem speak_preserves_headErrFree (st : RegistryState)
    (fmtOk : RegVoice → Bool) (sp : SpeakerState) (uid : Nat)
    (u : RegUtterance) (h : headErrFree sp.queue = true) :
    headErrFree (spiel_speaker_speak st fmtOk sp uid u).1.queue = true := by
  unfold spiel_speaker_speak
  cases hres : (match u.voice with
               | some v => some v
               | none => spiel_registry_get_voice_for_utterance st u) with
  | none => simpa using h
  | some v =>
    cases hqq : sp.queue with
    | nil => simp [hqq, drain_headErrFree]
    | cons h0 t0 =>
      rw [hqq] at h
      simp only [hqq]
      simp [headErrFree] at h ⊢
      exact h

theorem runSpeaks_headErrFree (st : RegistryState) (fmtOk : RegVoice → Bool)
    (inputs : List (Nat × RegUtterance)) (sp : SpeakerState)
    (h : headErrFree sp.queue = true) :
    headErrFree (runSpeaks st fmtOk sp inputs).1.queue = true := by
  induction inputs generalizing sp with
  | nil => simpa [runSpeaks] using h
  | cons p rest ih =>
    obtain ⟨uid, u⟩ := p
    simp only [runSpeaks]
    exact ih _ (speak_preserves_headErrFree st fmtOk sp uid u h)

/-- C8: after any sequence of speak calls starting from an idle speaker,
cancel on an empty queue is a no-op emitting no signals; on a nonempty
queue it emits exactly utterance-canceled for the current (head) entry,
drops every later queued entry without any signal for it, and leaves the
queue empty with the speaking property false. -/
theorem cancel_after_speaks (st : RegistryState) (fmtOk : RegVoice → Bool)
    (inputs : List (Nat × RegUtterance)) :
    ((runSpeaks st fmtOk ⟨[], false⟩ inputs).1.queue = [] →
      spiel_speaker_cancel (runSpeaks st fmtOk ⟨[], false⟩ inputs).1
        = ((runSpeaks st fmtOk ⟨[], false⟩ inputs).1, [])) ∧
    (∀ h t, (runSpeaks st fmtOk ⟨[], false⟩ inputs).1.queue = h :: t →
      spiel_speaker_cancel (runSpeaks st fmtOk ⟨[], false⟩ inputs).1
          = ({ (runSpeaks st fmtOk ⟨[], false⟩ inputs).1 with queue := [] },
             [SSig.canceled h.utt]) ∧
        spiel_speaker_speaking
            (spiel_speaker_cancel
              (runSpeaks st fmtOk ⟨[], false⟩ inputs).1).1
          = false) := by
  set sp := (runSpeaks st fmtOk ⟨[], false⟩ inputs).1 with hsp
  have hinv : headErrFree sp.queue = true := by
    rw [hsp]
    exact runSpeaks_headErrFree st fmtOk inputs ⟨[], false⟩ rfl
  constructor
  · intro hq
    unfold spiel_speaker_cancel
    rw [hq]
  · intro h t hq
    have herr : h.err = none := by
      rw [hq] at hinv
      simpa [headErrFree] using hinv
    have hc : spiel_speaker_cancel sp
        = ({ sp with queue := [] }, [SSig.canceled h.utt]) := by
      unfold spiel_speaker_cancel
      rw [hq]
      simp [_advance_to_next_entry_or_finish, _drain_errored_heads, herr]
    refine ⟨hc, ?_⟩
    rw [hc]
    rfl

/-- Witness for cancel after two concrete speak calls. -/
theorem cancel_after_speaks_witness :
    spiel_speaker_cancel
        (runSpeaks ⟨[], [], none⟩ (fun _ => true) ⟨[], false⟩
          [(5, ⟨some ⟨[119], [87], [[101, 110]], [66]⟩, none⟩),
           (6, ⟨some ⟨[119], [87], [[101, 110]], [66]⟩, none⟩)]).1
        = ({ (runSpeaks ⟨[], [], none⟩ (fun _ => true) ⟨[], false⟩
              [(5, ⟨some ⟨[119], [87], [[101, 110]], [66]⟩, none⟩),
               (6, ⟨some ⟨[119], [87], [[101, 110]], [66]⟩, none⟩)]).1
             with queue := [] },
           [SSig.canceled 5]) ∧
      spiel_speaker_speaking
          (spiel_speaker_cancel
            (runSpeaks ⟨[], [], none⟩ (fun _ => true) ⟨[], false⟩
              [(5, ⟨some ⟨[119], [87], [[101, 110]], [66]⟩, none⟩),
               (6, ⟨some ⟨[119], [87], [[101, 110]], [66]⟩, none⟩)]).1).1
        = false :=
  (cancel_after_speaks ⟨[], [], none⟩ (fun _ => true)
      [(5, ⟨some ⟨[119], [87], [[101, 110]], [66]⟩, none⟩),
       (6, ⟨some ⟨[119], [87], [[101, 110]], [66]⟩, none⟩)]).2
    ⟨5, none, false, []⟩ [⟨6, none, false, []⟩] (by decide)

theorem run_going_deferred (u : Nat) (p : Bool) (d pre : List SEv)
    (rest : List GstMsg) :
    run_gst_messages ⟨[⟨u, none, false, d⟩], p⟩
        (pre.map GstMsg.goingToSpeak ++ rest)
      = run_gst_messages ⟨[⟨u, none, false, d ++ pre⟩], p⟩ rest := by
  induction pre generalizing d with
  | nil => simp
  | cons ev pre ih =>
    have hstep : _handle_gst_message ⟨[⟨u, none, false, d⟩], p⟩
        (GstMsg.goingToSpeak ev)
        = (⟨[⟨u, none, false, d ++ [ev]⟩], p⟩, []) := rfl
    simp only [List.map_cons, List.cons_append, run_gst_messages, hstep,
      List.append_eq]
    rw [ih (d ++ [ev])]
    simp [List.append_assoc]

theorem run_going_live (u : Nat) (p : Bool) (mid : List SEv)
    (rest : List GstMsg) :
    run_gst_messages ⟨[⟨u, none, true, []⟩], p⟩
        (mid.map GstMsg.goingToSpeak ++ rest)
      = ((run_gst_messages ⟨[⟨u, none, true, []⟩], p⟩ rest).1,
         mid.filterMap (_process_going_to_speak_message u)
           ++ (run_gst_messages ⟨[⟨u, none, true, []⟩], p⟩ rest).2) := by
  induction mid with
  | nil => simp
  | cons ev mid ih =>
    have hstep : _handle_gst_message ⟨[⟨u, none, true, []⟩], p⟩
        (GstMsg.goingToSpeak ev)
        = (⟨[⟨u, none, true, []⟩], p⟩,
           (_process_going_to_speak_message u ev).toList) := rfl
    simp only [List.map_cons, List.cons_append, run_gst_messages, hstep,
      List.filterMap_cons]
    cases hev : _process_going_to_speak_message u ev with
    | none => simp [hev, ih]
    | some s => simp [hev, ih]

/-- C7: for a single queue entry (no prior error), the emitted signals
are totally ordered: utterance-started first, then the pre-PLAYING
GoingToSpeak messages deferred in the entry flushed in arrival order,
then the post-start messages in order, then exactly one terminal signal
(finished here) — matching the claimed lifecycle order. -/
theorem entry_lifecycle_signal_order (u : Nat) (pre mid : List SEv)
    (p : Bool) :
    run_gst_messages ⟨[⟨u, none, false, []⟩], p⟩
        (pre.map GstMsg.goingToSpeak
          ++ GstMsg.reachedPlaying
            :: (mid.map GstMsg.goingToSpeak ++ [GstMsg.srcStateNull]))
      = (⟨[], false⟩,
         SSig.started u
           :: (pre.filterMap (_process_going_to_speak_message u)
               ++ (mid.filterMap (_process_going_to_speak_message u)
                   ++ [SSig.finished u]))) := by
  rw [run_going_deferred u p [] pre _]
  simp only [List.nil_append]
  have hstep : _handle_gst_message ⟨[⟨u, none, false, pre⟩], p⟩
      GstMsg.reachedPlaying
      = (⟨[⟨u, none, true, []⟩], false⟩,
         SSig.started u
           :: pre.filterMap (_process_going_to_speak_message u)) := rfl
  simp only [run_gst_messages, hstep]
  rw [run_going_live u false mid [GstMsg.srcStateNull]]
  have hfin : run_gst_messages ⟨[⟨u, none, true, []⟩], false⟩
      [GstMsg.srcStateNull] = (⟨[], false⟩, [SSig.finished u]) := rfl
  rw [hfin]
  simp

-- ============================================================
-- Theorems for Part 6 (provider enumeration) and Part 7 (utterance)
-- ============================================================

/-- C6 counterexample: a single provider proxy-construction error makes
the standalone providers-list-model initialization FAIL (NULL from
new_finish), while registry initialization on a good bus still succeeds
(returning an empty pass) — the failure is not merely logged-and-skipped
everywhere the claim says. -/
theorem provider_proxy_error_fails_list_model_init :
    spiel_providers_list_model_async_new true
        [(ProviderInitStep.proxyError : ProviderInitStep Unit)] = none ∧
    spiel_registry_async_init true
        [(ProviderInitStep.proxyError : ProviderInitStep Unit)]
      = some [] ∧
    spiel_registry_async_init true
        [ProviderInitStep.ok (), ProviderInitStep.voicesError,
         ProviderInitStep.ok ()]
      = some [()] :=
  ⟨rfl, rfl, rfl⟩

/-- C6 (amended): registry initialization succeeds exactly when the bus
is acquired — a failing provider aborts the rest of that update pass
(keeping providers added before it) and the error is downgraded to a
warning — while the providers-list-model initialization fails whenever
the bus fails or ANY initial provider construction errors. -/
theorem registry_init_fails_only_on_bus_failure {P : Type} (busOk : Bool)
    (steps : List (ProviderInitStep P)) :
    ((spiel_registry_async_init busOk steps).isSome = busOk) ∧
    ((spiel_providers_list_model_async_new busOk steps).isSome
      = (busOk
          && !steps.any
              (fun s => match s with | .ok _ => false | _ => true))) := by
  constructor
  · unfold spiel_registry_async_init
    cases busOk <;> rfl
  · unfold spiel_providers_list_model_async_new
    cases busOk
    · rfl
    · cases h : steps.any
          (fun s => match s with | .ok _ => false | _ => true) <;>
        simp [h]

/-- C9 counterexample: spiel_utterance_set_pitch stores an out-of-range
value as given — no clamping to [0, 2] happens in the C setter, so the
claimed invariant fails under this public operation. -/
theorem set_pitch_stores_out_of_range_value :
    (spiel_utterance_set_pitch spiel_utterance_init 5).pitch = 5 ∧
    ¬((spiel_utterance_set_pitch spiel_utterance_init 5).pitch ≤ 2) :=
  ⟨rfl, by decide⟩

theorem utterance_init_in_ranges : utteranceInRanges spiel_utterance_init := by
  unfold utteranceInRanges spiel_utterance_init
  norm_num

/-- C9 (amended): a newly constructed utterance has
pitch = rate = volume = 1, no voice, no language and is_ssml false, all
within the documented ranges; setting pitch/rate/volume through the
GObject property path preserves the ranges (an out-of-range value is
rejected with a warning, leaving the property unchanged); the plain C
setters store the value unvalidated. -/
theorem utterance_defaults_and_property_ranges (u : SpielUtterance)
    (x : ℚ) (h : utteranceInRanges u) :
    utteranceInRanges spiel_utterance_init ∧
    spiel_utterance_init.pitch = 1 ∧
    spiel_utterance_init.rate = 1 ∧
    spiel_utterance_init.volume = 1 ∧
    spiel_utterance_init.voice = none ∧
    spiel_utterance_init.language = none ∧
    spiel_utterance_init.is_ssml = false ∧
    utteranceInRanges (g_object_set_pitch u x) ∧
    utteranceInRanges (g_object_set_rate u x) ∧
    utteranceInRanges (g_object_set_volume u x) ∧
    (spiel_utterance_set_pitch u x).pitch = x ∧
    (spiel_utterance_set_rate u x).rate = x ∧
    (spiel_utterance_set_volume u x).volume = x := by
  obtain ⟨hp0, hp2, hr0, hr10, hv0, hv1⟩ := h
  refine ⟨utterance_init_in_ranges,
    rfl, rfl, rfl, rfl, rfl, rfl, ?_, ?_, ?_, rfl, rfl, rfl⟩
  · unfold g_object_set_pitch
    by_cases hx : 0 ≤ x ∧ x ≤ 2
    · rw [if_pos hx]
      exact ⟨hx.1, hx.2, hr0, hr10, hv0, hv1⟩
    · rw [if_neg hx]
      exact ⟨hp0, hp2, hr0, hr10, hv0, hv1⟩
  · unfold g_object_set_rate
    by_cases hx : 1/10 ≤ x ∧ x ≤ 10
    · rw [if_pos hx]
      exact ⟨hp0, hp2, hx.1, hx.2, hv0, hv1⟩
    · rw [if_neg hx]
      exact ⟨hp0, hp2, hr0, hr10, hv0, hv1⟩
  · unfold g_object_set_volume
    by_cases hx : 0 ≤ x ∧ x ≤ 1
    · rw [if_pos hx]
      exact ⟨hp0, hp2, hr0, hr10, hx.1, hx.2⟩
    · rw [if_neg hx]
      exact ⟨hp0, hp2, hr0, hr10, hv0, hv1⟩

/-- Witness: the amended C9 theorem at the default utterance and an
out-of-range candidate value. -/
theorem utterance_defaults_and_property_ranges_witness :
    utteranceInRanges spiel_utterance_init ∧
    spiel_utterance_init.pitch = 1 ∧
    spiel_utterance_init.rate = 1 ∧
    spiel_utterance_init.volume = 1 ∧
    spiel_utterance_init.voice = none ∧
    spiel_utterance_init.language = none ∧
    spiel_utterance_init.is_ssml = false ∧
    utteranceInRanges (g_object_set_pitch spiel_utterance_init 7) ∧
    utteranceInRanges (g_object_set_rate spiel_utterance_init 7) ∧
    utteranceInRanges (g_object_set_volume spiel_utterance_init 7) ∧
    (spiel_utterance_set_pitch spiel_utterance_init 7).pitch = 7 ∧
    (spiel_utterance_set_rate spiel_utterance_init 7).rate = 7 ∧
    (spiel_utterance_set_volume spiel_utterance_init 7).volume = 7 :=
  utterance_defaults_and_property_ranges spiel_utterance_init 7
    utterance_init_in_ranges

/-- Witness for the constructor validation at concrete descriptors. -/
theorem stream_constructors_validate_only_openness_witness :
    (fun f : Int => decide (0 ≤ f)) 3 = true ∧
    speech_provider_stream_reader_new (fun f : Int => decide (0 ≤ f)) 3
        = some ⟨3, false, 0⟩ ∧
    speech_provider_stream_writer_new (fun f : Int => decide (0 ≤ f)) 3
        = some ⟨3, false⟩ ∧
    (speech_provider_stream_reader_new (fun f : Int => decide (0 ≤ f))
        (-1)).isSome = false :=
  ⟨by decide,
   ((stream_constructors_validate_only_openness
        (fun f : Int => decide (0 ≤ f)) 3).2.2 (by decide)).1,
   ((stream_constructors_validate_only_openness
        (fun f : Int => decide (0 ≤ f)) 3).2.2 (by decide)).2,
   (stream_constructors_validate_only_openness
        (fun f : Int => decide (0 ≤ f)) (-1)).1.trans (by decide)⟩
